import Mathlib

/-!
Verification of the RAG chatbot (src/rag.py): data model, chunking,
retrieval, prompt composition and the session/chat controller, embedded
shallowly. Python strings are modelled as lists of characters.
-/

/-- Python strings are modelled as lists of characters. -/
abbrev Str := List Char

/-- The apostrophe character (ASCII 39), used in the HTML highlight markup. -/
def apos : Char := Char.ofNat 39

/-! ### Chunker

The splitter is langchain's `RecursiveCharacterTextSplitter`, configured in
`src/rag.py` line 190 with `chunk_size=300, chunk_overlap=50`; its own code is
not part of this repository, so it is modelled from the spec (section 4.1). -/

/-- Paragraph boundary, the largest structural break the chunker prefers. -/
def parBoundary : Str := '\n' :: '\n' :: []

/-- Sentence boundary, the second structural break the chunker prefers. -/
def sentenceBoundary : Str := '.' :: ' ' :: []

/-- Word boundary, the last structural break before raw character cuts. -/
def wordBoundary : Str := ' ' :: []

/-- `leadsWith needle hay` holds when `needle` is an initial segment of `hay`. -/
def leadsWith : Str → Str → Bool
  | [], _ => true
  | _ :: _, [] => false
  | a :: as, b :: bs => a == b && leadsWith as bs

/-- Modelled from the spec: the last position strictly inside the window where
the given structural boundary occurs, if any. -/
def boundaryCut (needle w : Str) : Option Nat :=
  (((List.range w.length).drop 1).filter (fun i => leadsWith needle (w.drop i))).getLast?

/-- Modelled from the spec: the chunk cut from the front of `t`, preferring to
break at the nearest preceding paragraph, sentence or word boundary within the
`maxSize`-length window, else cutting at the raw character limit. -/
def breakWindow (maxSize : Nat) (t : Str) : Str :=
  let w := t.take maxSize
  match boundaryCut parBoundary w with
  | some i => w.take i
  | none =>
    match boundaryCut sentenceBoundary w with
    | some i => w.take i
    | none =>
      match boundaryCut wordBoundary w with
      | some i => w.take i
      | none => w

/-- Modelled from the spec: greedy window consumption.  If the remaining text
fits in one window it is emitted whole; otherwise a window-bounded chunk is
emitted and the next window starts `step = maxSize - overlap` characters after
the previous window's start. -/
def chunksFrom (maxSize step : Nat) (hstep : 0 < step) (text : Str) : List Str :=
  if text.length = 0 then []
  else if text.length ≤ maxSize then [text]
  else breakWindow maxSize text :: chunksFrom maxSize step hstep (text.drop step)
termination_by text.length
decreasing_by
  simp only [List.length_drop]
  omega

/-- Modelled from the spec: `chunk(text, max_size, overlap)`, the splitter used
by `src/rag.py` line 190-191.  The spec's input constraint is
`max_size > overlap >= 0`; outside it no chunks are produced. -/
def chunk (text : Str) (maxSize overlap : Nat) : List Str :=
  if h : overlap < maxSize then chunksFrom maxSize (maxSize - overlap) (by omega) text
  else []

/-! ### Vector index and retrieval

The vector store is FAISS (`src/rag.py` lines 194-195, 204), external to this
repository; retrieval is modelled from the spec (section 4.2).  The embedder is
an external collaborator, passed as a function parameter. -/

/-- An embedding vector. -/
abbrev Vec := List ℚ

/-- One index entry as ranked during retrieval: similarity score, original
insertion position, chunk text. -/
structure Scored where
  score : ℚ
  pos : Nat
  text : Str

/-- `rankBefore a b`: entry `a` is returned no later than `b` — higher
similarity first, ties broken by earlier insertion position. -/
def rankBefore (a b : Scored) : Prop :=
  b.score < a.score ∨ (a.score = b.score ∧ a.pos ≤ b.pos)

instance : DecidableRel rankBefore := fun a b => by
  unfold rankBefore
  infer_instance

instance : IsTotal Scored rankBefore :=
  ⟨fun a b => by
    unfold rankBefore
    rcases lt_trichotomy a.score b.score with h | h | h
    · exact Or.inr (Or.inl h)
    · rcases Nat.le_total a.pos b.pos with hp | hp
      · exact Or.inl (Or.inr ⟨h, hp⟩)
      · exact Or.inr (Or.inr ⟨h.symm, hp⟩)
    · exact Or.inl (Or.inl h)⟩

instance : IsTrans Scored rankBefore :=
  ⟨fun a b c hab hbc => by
    unfold rankBefore at hab hbc ⊢
    rcases hab with h1 | ⟨h1e, h1p⟩ <;> rcases hbc with h2 | ⟨h2e, h2p⟩
    · exact Or.inl (h2.trans h1)
    · exact Or.inl (by rw [← h2e]; exact h1)
    · exact Or.inl (by rw [h1e]; exact h2)
    · exact Or.inr ⟨h1e.trans h2e, h1p.trans h2p⟩⟩

/-- Pair every stored chunk with its similarity score and insertion position. -/
def annotate (f : Str → ℚ) : Nat → List Str → List Scored
  | _, [] => []
  | i, c :: cs => ⟨f c, i, c⟩ :: annotate f (i + 1) cs

/-- Modelled from the spec: score every stored chunk against the query and
order the entries from most to least similar, ties broken by insertion order. -/
def rank (embed : Str → Vec) (sim : Vec → Vec → ℚ) (index : List Str) (q : Str) :
    List Scored :=
  List.insertionSort rankBefore (annotate (fun c => sim (embed q) (embed c)) 0 index)

/-- Modelled from the spec: `retrieve(index, query, k)` — the `k` chunk texts
with the highest similarity scores (`src/rag.py` lines 195 and 204). -/
def retrieve (embed : Str → Vec) (sim : Vec → Vec → ℚ) (index : List Str) (q : Str)
    (k : Nat) : List Str :=
  ((rank embed sim index q).take k).map Scored.text

/-! ### Prompt composition (src/rag.py lines 205-214) -/

/-- Opening highlight markup wrapped around each retrieved chunk (line 206). -/
def hlOpen : Str :=
  "<span class=".data ++ [apos] ++ "pdf-highlight".data ++ [apos] ++ ">".data

/-- Closing highlight markup wrapped around each retrieved chunk (line 206). -/
def hlClose : Str := "</span>".data

/-- One retrieved chunk as it appears in the context string (line 206). -/
def wrapChunk (c : Str) : Str := hlOpen ++ c ++ hlClose

/-- Python's `sep.join(xs)`. -/
def joinSep (sep : Str) : List Str → Str
  | [] => []
  | [c] => c
  | c :: cs => c ++ sep ++ joinSep sep cs

/-- The `context` string of lines 205-207: the wrapped chunks joined by a
single space. -/
def contextOf (docs : List Str) : Str := joinSep [' '] (docs.map wrapChunk)

/-- Fixed prompt text before the context (lines 210-212). -/
def promptHead : Str :=
  "\n                You are a helpful assistant.\n                Context: ".data

/-- Fixed prompt text between the context and the user question (line 213). -/
def questionHead : Str := "\n                User question: ".data

/-- Fixed prompt text after the user question (line 214). -/
def promptTail : Str := "\n                ".data

/-- The full prompt string of lines 210-214. -/
def prompt (docs : List Str) (q : Str) : Str :=
  promptHead ++ contextOf docs ++ questionHead ++ q ++ promptTail

/-- The effective separator between consecutive chunk texts inside the
composed prompt. -/
def chunkJoinSep : Str := hlClose ++ [' '] ++ hlOpen

/-! ### Session / chat controller (src/rag.py lines 36-41, 178-250) -/

/-- Role tag of a chat turn. -/
inductive Role
  | user
  | assistant
deriving DecidableEq, Repr

/-- One chat turn (an element of `st.session_state.chat_history`). -/
structure Turn where
  role : Role
  content : Str
deriving DecidableEq, Repr

/-- Controller phase: `Idle` (no usable index) or `Indexed` (ready). -/
inductive Phase
  | Idle
  | Indexed
deriving DecidableEq, Repr

/-- The error taxonomy of spec section 7 (none of these is raised by the
upload path of the code, which silently skips the build instead). -/
inductive RagError
  | extraction
  | emptyCorpus
  | embeddingFail
  | generation
  | configuration
deriving DecidableEq, Repr

/-- Session state: chat history, controller phase, chunk texts held by the
vector index, and the configured API key. -/
structure SessionState where
  chatHistory : List Turn
  phase : Phase
  index : List Str
  apiKey : Option Str
deriving DecidableEq, Repr

/-- Python's `str.strip()` (default whitespace stripping), line 182. -/
def pyStrip (s : Str) : Str :=
  ((s.dropWhile Char.isWhitespace).reverse.dropWhile Char.isWhitespace).reverse

/-- Chunk size fixed at line 190. -/
def chunkSize : Nat := 300

/-- Chunk overlap fixed at line 190. -/
def chunkOverlap : Nat := 50

/-- Retrieval count fixed at line 195 (`search_kwargs={"k": 3}`). -/
def kRetrieval : Nat := 3

/-- Name of the environment variable read at line 184. -/
def apiKeyName : String := "GOOGLE_API_KEY"

/-- Document processing on upload (lines 178-195): if the extracted text is
non-blank, read the API key from the environment, configure the model (which
stores the key whether or not it is present), chunk the text, and build the
index when there are chunks.  The blank-text and no-chunk paths change no
state besides the stored key and surface no error. -/
def processUpload (env : String → Option Str) (fileText : Str) (s : SessionState) :
    SessionState × Option RagError :=
  if pyStrip fileText = [] then (s, none)
  else
    let key := env apiKeyName
    let chunks := chunk fileText chunkSize chunkOverlap
    if chunks = [] then ({ s with apiKey := key }, none)
    else ({ s with phase := Phase.Indexed, index := chunks, apiKey := key }, none)

/-- The chunks handed to retrieval for a query (line 204), always with the
fixed `k`. -/
def retrievedDocs (embed : Str → Vec) (sim : Vec → Vec → ℚ) (s : SessionState)
    (q : Str) : List Str :=
  retrieve embed sim s.index q kRetrieval

/-- One query turn (lines 200-250): only available in `Indexed`; appends the
user turn, retrieves, composes the prompt and calls the generator `llm`
(external, `none` meaning the call raised or returned no usable completion).
On success the assistant turn is appended; on failure the exception propagates
uncaught — the Boolean result records whether it raised. -/
def answerQuery (embed : Str → Vec) (sim : Vec → Vec → ℚ) (llm : Str → Option Str)
    (q : Str) (s : SessionState) : SessionState × Bool :=
  match s.phase with
  | Phase.Idle => (s, false)
  | Phase.Indexed =>
    let s1 := { s with chatHistory := s.chatHistory ++ [⟨Role.user, q⟩] }
    match llm (prompt (retrievedDocs embed sim s q) q) with
    | some resp =>
      ({ s1 with chatHistory := s1.chatHistory ++ [⟨Role.assistant, resp⟩] }, false)
    | none => (s1, true)

/-- The Reset Chat button (lines 39-41): clears the chat history only. -/
def resetChat (s : SessionState) : SessionState := { s with chatHistory := [] }

/-- The session operations. -/
inductive Op where
  | upload : (String → Option Str) → Str → Op
  | query : (Str → Vec) → (Vec → Vec → ℚ) → (Str → Option Str) → Str → Op
  | reset : Op

/-- One controller step. -/
def step : Op → SessionState → SessionState
  | Op.upload env t, s => (processUpload env t s).1
  | Op.query e si l q, s => (answerQuery e si l q s).1
  | Op.reset, s => resetChat s

/-! ### Concrete instances used by witnesses and counterexamples -/

/-- A concrete deterministic embedder. -/
def embed0 : Str → Vec := fun c => [(c.length : ℚ)]

/-- A concrete similarity function. -/
def sim0 : Vec → Vec → ℚ := fun a b => a.headD 0 * b.headD 0

/-- A generator that always fails. -/
def llmFail : Str → Option Str := fun _ => none

/-- A generator that always answers "ok". -/
def llmOk : Str → Option Str := fun _ => some "ok".data

/-- An environment with no API key. -/
def env0 : String → Option Str := fun _ => none

/-- The initial session state. -/
def emptyHistoryIdle : SessionState := ⟨[], Phase.Idle, [], none⟩

/-- A concrete indexed session state. -/
def sIndexed : SessionState := ⟨[], Phase.Indexed, ["doc".data], none⟩

/-- The same index as `sIndexed` but with prior history. -/
def sIndexed2 : SessionState :=
  ⟨[⟨Role.user, "old".data⟩], Phase.Indexed, ["doc".data], none⟩

/-- A concrete small index for retrieval witnesses. -/
def idxW : List Str := ["aa".data, "b".data]

/-! ### Chunker theorems -/

/-- Chunking the empty text yields no chunks. -/
lemma chunk_nil (maxSize overlap : Nat) : chunk ([] : Str) maxSize overlap = [] := by
  unfold chunk
  split
  · unfold chunksFrom
    simp
  · rfl

/-- A non-empty text that fits in one window is returned as the single chunk. -/
lemma chunk_of_short (t : Str) (maxSize overlap : Nat) (h : overlap < maxSize)
    (ht : t ≠ []) (hlen : t.length ≤ maxSize) : chunk t maxSize overlap = [t] := by
  have h0 : ¬ (t.length = 0) := by simpa [List.length_eq_zero] using ht
  unfold chunk
  rw [dif_pos h]
  unfold chunksFrom
  rw [if_neg h0, if_pos hlen]

/-- A concrete evaluation of the chunker at the code's parameters. -/
lemma chunk_hello :
    chunk ('h' :: 'e' :: 'l' :: 'l' :: 'o' :: []) 300 50 =
      [('h' :: 'e' :: 'l' :: 'l' :: 'o' :: [])] :=
  chunk_of_short _ _ _ (by norm_num) (by decide) (by decide)

/-- Claim C6: for every text of length at most `max_size`, `chunk` returns
exactly one chunk equal to the text, and the empty text yields an empty
sequence of chunks. -/
theorem chunk_short_text (t : Str) (maxSize overlap : Nat) (h : overlap < maxSize) :
    chunk ([] : Str) maxSize overlap = []
    ∧ (t ≠ [] → t.length ≤ maxSize → chunk t maxSize overlap = [t]) :=
  ⟨chunk_nil maxSize overlap, fun ht hlen => chunk_of_short t maxSize overlap h ht hlen⟩

/-- Witness for claim C6 at a concrete short text and the code's parameters. -/
theorem chunk_short_text_witness :
    chunk "hi".data 300 50 = ["hi".data] ∧ chunk ([] : Str) 300 50 = [] :=
  ⟨(chunk_short_text "hi".data 300 50 (by norm_num)).2 (by decide) (by decide),
   (chunk_short_text "hi".data 300 50 (by norm_num)).1⟩

/-! ### Prompt composition theorems -/

/-- Joining the wrapped chunks with a space equals a fixed opening wrapper,
the chunk texts joined with a fixed separator, and a fixed closing wrapper. -/
lemma join_wrap (docs : List Str) (h : docs ≠ []) :
    joinSep [' '] (docs.map wrapChunk) =
      hlOpen ++ joinSep chunkJoinSep docs ++ hlClose := by
  induction docs with
  | nil => exact absurd rfl h
  | cons c rest ih =>
    cases rest with
    | nil => simp [joinSep, wrapChunk, List.append_assoc]
    | cons d ds =>
      have ih' := ih (by simp)
      simp only [List.map] at ih' ⊢
      rw [show joinSep [' '] (wrapChunk c :: wrapChunk d :: List.map wrapChunk ds) =
            wrapChunk c ++ [' '] ++ joinSep [' '] (wrapChunk d :: List.map wrapChunk ds)
          from rfl,
          ih',
          show joinSep chunkJoinSep (c :: d :: ds) =
            c ++ chunkJoinSep ++ joinSep chunkJoinSep (d :: ds) from rfl]
      simp [wrapChunk, chunkJoinSep, List.append_assoc]

/-- Claim C4: for every query, the prompt handed to the generator is one
string concatenating fixed instruction text, the retrieved chunk texts joined
with a fixed separator, and the literal user question. -/
theorem prompt_composition (docs : List Str) (q : Str) (h : docs ≠ []) :
    prompt docs q =
      promptHead ++ hlOpen ++ joinSep chunkJoinSep docs ++ hlClose
        ++ questionHead ++ q ++ promptTail := by
  unfold prompt contextOf
  rw [join_wrap docs h]
  simp [List.append_assoc]

/-- Witness for claim C4 at two concrete chunks and a concrete question. -/
theorem prompt_composition_witness :
    prompt ["a".data, "b".data] "z".data =
      promptHead ++ hlOpen ++ joinSep chunkJoinSep ["a".data, "b".data] ++ hlClose
        ++ questionHead ++ "z".data ++ promptTail :=
  prompt_composition ["a".data, "b".data] "z".data (by simp)

/-! ### Retrieval theorems -/

/-- Every ranked entry's text is a stored chunk. -/
lemma annotate_text_mem (f : Str → ℚ) (i : Nat) (l : List Str) (s : Scored)
    (hs : s ∈ annotate f i l) : s.text ∈ l := by
  induction l generalizing i with
  | nil => simp [annotate] at hs
  | cons c cs ih =>
    simp only [annotate, List.mem_cons] at hs
    rcases hs with h | h
    · subst h
      simp
    · exact List.mem_cons_of_mem _ (ih _ h)

/-- Projecting the ranked entries back to texts recovers the stored chunks. -/
lemma annotate_map_text (f : Str → ℚ) (i : Nat) (l : List Str) :
    (annotate f i l).map Scored.text = l := by
  induction l generalizing i with
  | nil => rfl
  | cons c cs ih => simp [annotate, ih]

/-- Ranking preserves the number of stored chunks. -/
lemma annotate_length (f : Str → ℚ) (i : Nat) (l : List Str) :
    (annotate f i l).length = l.length := by
  have := congrArg List.length (annotate_map_text f i l)
  simpa using this

/-- `retrieve` never returns more than `k` entries. -/
lemma retrieve_length_le (embed : Str → Vec) (sim : Vec → Vec → ℚ)
    (index : List Str) (q : Str) (k : Nat) :
    (retrieve embed sim index q k).length ≤ k := by
  simp [retrieve, List.length_take]

/-- `retrieve` never returns an entry absent from the built index. -/
lemma retrieve_mem (embed : Str → Vec) (sim : Vec → Vec → ℚ)
    (index : List Str) (q : Str) (k : Nat) (c : Str)
    (hc : c ∈ retrieve embed sim index q k) : c ∈ index := by
  simp only [retrieve, List.mem_map] at hc
  obtain ⟨sc, hsc, rfl⟩ := hc
  have h1 : sc ∈ rank embed sim index q :=
    (List.take_sublist _ _).mem hsc
  have h2 : sc ∈ annotate (fun c => sim (embed q) (embed c)) 0 index :=
    (List.perm_insertionSort rankBefore _).mem_iff.mp h1
  exact annotate_text_mem _ _ _ _ h2

/-- The returned entries are ordered from most to least similar, ties broken
by insertion order. -/
lemma rank_take_sorted (embed : Str → Vec) (sim : Vec → Vec → ℚ)
    (index : List Str) (q : Str) (k : Nat) :
    List.Sorted rankBefore ((rank embed sim index q).take k) :=
  List.Pairwise.sublist (List.take_sublist _ _) (List.sorted_insertionSort _ _)

/-- If the index holds at most `k` entries, `retrieve` returns all of them. -/
lemma retrieve_all_of_small (embed : Str → Vec) (sim : Vec → Vec → ℚ)
    (index : List Str) (q : Str) (k : Nat) (h : index.length ≤ k) :
    (retrieve embed sim index q k).Perm index := by
  have hlen : (rank embed sim index q).length = index.length := by
    rw [rank, (List.perm_insertionSort rankBefore _).length_eq, annotate_length]
  have htake : (rank embed sim index q).take k = rank embed sim index q :=
    List.take_of_length_le (by omega)
  rw [retrieve, htake]
  have hperm := (List.perm_insertionSort rankBefore
    (annotate (fun c => sim (embed q) (embed c)) 0 index)).map Scored.text
  rw [annotate_map_text] at hperm
  exact hperm

/-- Claim C5: `retrieve` returns at most `k` chunk texts, each present in the
built index, ordered from most to least similar with ties broken by original
insertion order, and returns all entries when the index holds fewer than `k`. -/
theorem retrieve_spec (embed : Str → Vec) (sim : Vec → Vec → ℚ)
    (index : List Str) (q : Str) (k : Nat) :
    (retrieve embed sim index q k).length ≤ k
    ∧ (∀ c ∈ retrieve embed sim index q k, c ∈ index)
    ∧ List.Sorted rankBefore ((rank embed sim index q).take k)
    ∧ (index.length ≤ k → (retrieve embed sim index q k).Perm index) :=
  ⟨retrieve_length_le embed sim index q k,
   fun c hc => retrieve_mem embed sim index q k c hc,
   rank_take_sorted embed sim index q k,
   fun h => retrieve_all_of_small embed sim index q k h⟩

/-- Witness for claim C5 at a concrete two-entry index with `k = 5`. -/
theorem retrieve_spec_witness :
    (retrieve embed0 sim0 idxW "q".data 5).Perm idxW :=
  (retrieve_spec embed0 sim0 idxW "q".data 5).2.2.2 (by decide)

/-! ### Controller theorems -/

/-- Document processing never touches the chat history. -/
lemma processUpload_chatHistory (env : String → Option Str) (t : Str) (s : SessionState) :
    (processUpload env t s).1.chatHistory = s.chatHistory := by
  simp only [processUpload]
  split
  · rfl
  · split
    · rfl
    · rfl

/-- Counterexample to claim C1 at a concrete failing generation call: only the
user turn is appended — no assistant turn (so none containing an error
indicator) is appended to the chat history. -/
theorem generation_failure_counterexample :
    (answerQuery embed0 sim0 llmFail "hi".data sIndexed).1.chatHistory =
      sIndexed.chatHistory ++ [⟨Role.user, "hi".data⟩]
    ∧ ¬ ∃ e, (answerQuery embed0 sim0 llmFail "hi".data sIndexed).1.chatHistory =
        sIndexed.chatHistory ++ [⟨Role.user, "hi".data⟩, ⟨Role.assistant, e⟩] := by
  constructor
  · rfl
  · rintro ⟨e, he⟩
    simp [answerQuery, sIndexed, llmFail] at he

/-- Claim C1 as amended: when the generate call fails, the exception
propagates uncaught — no assistant turn is appended, only the user turn — and
the phase and index are unchanged, so the session stays `Indexed` and usable. -/
theorem generation_failure_amended (embed : Str → Vec) (sim : Vec → Vec → ℚ)
    (llm : Str → Option Str) (q : Str) (s : SessionState)
    (hp : s.phase = Phase.Indexed)
    (hl : llm (prompt (retrievedDocs embed sim s q) q) = none) :
    (answerQuery embed sim llm q s).2 = true
    ∧ (answerQuery embed sim llm q s).1.chatHistory = s.chatHistory ++ [⟨Role.user, q⟩]
    ∧ (answerQuery embed sim llm q s).1.phase = Phase.Indexed
    ∧ (answerQuery embed sim llm q s).1.index = s.index := by
  rcases s with ⟨ch, ph, ix, key⟩
  cases ph with
  | Idle => exact absurd hp (by simp)
  | Indexed => simp [answerQuery, hl]

/-- Witness for the amended claim C1 at a concrete failing generator. -/
theorem generation_failure_amended_witness :
    (answerQuery embed0 sim0 llmFail "hi".data sIndexed).2 = true
    ∧ (answerQuery embed0 sim0 llmFail "hi".data sIndexed).1.chatHistory =
        sIndexed.chatHistory ++ [⟨Role.user, "hi".data⟩]
    ∧ (answerQuery embed0 sim0 llmFail "hi".data sIndexed).1.phase = Phase.Indexed
    ∧ (answerQuery embed0 sim0 llmFail "hi".data sIndexed).1.index = sIndexed.index :=
  generation_failure_amended embed0 sim0 llmFail "hi".data sIndexed rfl rfl

/-- Counterexample to claim C2 at the concrete empty-chunk input: no index is
built and the controller stays `Idle`, but no `EmptyCorpusError` (indeed no
error at all) is surfaced — the build is silently skipped. -/
theorem empty_corpus_counterexample :
    chunk ([] : Str) chunkSize chunkOverlap = []
    ∧ pyStrip ([] : Str) = []
    ∧ ¬ ((processUpload env0 ([] : Str) emptyHistoryIdle).2 = some RagError.emptyCorpus)
    ∧ (processUpload env0 ([] : Str) emptyHistoryIdle).2 = none
    ∧ (processUpload env0 ([] : Str) emptyHistoryIdle).1 = emptyHistoryIdle := by
  refine ⟨chunk_nil _ _, rfl, ?_, rfl, rfl⟩
  intro h
  simp [processUpload, pyStrip, env0] at h

/-- Claim C2 as amended: when extraction yields blank text or chunking yields
no chunks, no index is built, the phase is unchanged (`Idle` stays `Idle`) and
no error is surfaced — the build is silently skipped. -/
theorem empty_corpus_amended (env : String → Option Str) (t : Str) (s : SessionState)
    (h : pyStrip t = [] ∨ chunk t chunkSize chunkOverlap = []) :
    (processUpload env t s).2 = none
    ∧ (processUpload env t s).1.phase = s.phase
    ∧ (processUpload env t s).1.index = s.index
    ∧ (processUpload env t s).1.chatHistory = s.chatHistory := by
  by_cases hs : pyStrip t = []
  · simp [processUpload, hs]
  · rcases h with h | h
    · exact absurd h hs
    · simp [processUpload, hs, h]

/-- Witness for the amended claim C2 at the concrete empty text. -/
theorem empty_corpus_amended_witness :
    (processUpload env0 ([] : Str) emptyHistoryIdle).2 = none
    ∧ (processUpload env0 ([] : Str) emptyHistoryIdle).1.phase = emptyHistoryIdle.phase
    ∧ (processUpload env0 ([] : Str) emptyHistoryIdle).1.index = emptyHistoryIdle.index
    ∧ (processUpload env0 ([] : Str) emptyHistoryIdle).1.chatHistory =
        emptyHistoryIdle.chatHistory :=
  empty_corpus_amended env0 ([] : Str) emptyHistoryIdle (Or.inl rfl)

/-- Counterexample to claim C3 at a concrete environment with no API key: the
upload path completes to `Indexed` and surfaces no configuration error, so a
missing credential does not make the program fail fast. -/
theorem missing_key_counterexample :
    env0 apiKeyName = none
    ∧ (processUpload env0 "hello".data emptyHistoryIdle).1.phase = Phase.Indexed
    ∧ ¬ ((processUpload env0 "hello".data emptyHistoryIdle).2 =
        some RagError.configuration) := by
  have hs : ¬ (pyStrip "hello".data = []) := by decide
  refine ⟨rfl, ?_, ?_⟩
  · simp [processUpload, hs, chunk_hello, chunkSize, chunkOverlap]
  · intro h
    simp [processUpload, hs, chunk_hello, chunkSize, chunkOverlap] at h

/-- Claim C3 as amended: the API key is read from the process environment when
a document is processed (not at program startup), whether or not it is
present; a missing key surfaces no error there and processing still reaches
`Indexed` — the failure can only occur later, at a generation call. -/
theorem missing_key_amended (env : String → Option Str) (t : Str) (s : SessionState)
    (hs : pyStrip t ≠ []) :
    (processUpload env t s).1.apiKey = env apiKeyName
    ∧ (processUpload env t s).2 = none
    ∧ (chunk t chunkSize chunkOverlap ≠ [] →
        (processUpload env t s).1.phase = Phase.Indexed) := by
  by_cases hc : chunk t chunkSize chunkOverlap = []
  · simp [processUpload, hs, hc]
  · simp [processUpload, hs, hc]

/-- Witness for the amended claim C3 at a concrete text and empty environment. -/
theorem missing_key_amended_witness :
    (processUpload env0 "hello".data emptyHistoryIdle).1.apiKey = env0 apiKeyName
    ∧ (processUpload env0 "hello".data emptyHistoryIdle).2 = none
    ∧ (chunk "hello".data chunkSize chunkOverlap ≠ [] →
        (processUpload env0 "hello".data emptyHistoryIdle).1.phase = Phase.Indexed) :=
  missing_key_amended env0 "hello".data emptyHistoryIdle (by decide)

/-- Claim C7: reset clears the chat turn sequence and changes nothing else —
phase, index and key are untouched — so a subsequent query still succeeds
without re-uploading the document. -/
theorem reset_frame (s : SessionState) :
    (resetChat s).chatHistory.length = 0
    ∧ (resetChat s).phase = s.phase
    ∧ (resetChat s).index = s.index
    ∧ (resetChat s).apiKey = s.apiKey
    ∧ (∀ (embed : Str → Vec) (sim : Vec → Vec → ℚ) (llm : Str → Option Str)
        (q a : Str), s.phase = Phase.Indexed →
        llm (prompt (retrievedDocs embed sim s q) q) = some a →
        (answerQuery embed sim llm q (resetChat s)).2 = false
        ∧ (answerQuery embed sim llm q (resetChat s)).1.chatHistory =
            [⟨Role.user, q⟩, ⟨Role.assistant, a⟩]) := by
  refine ⟨rfl, rfl, rfl, rfl, ?_⟩
  intro embed sim llm q a hp hl
  rcases s with ⟨ch, ph, ix, key⟩
  cases ph with
  | Idle => exact absurd hp (by simp)
  | Indexed =>
    simp only [retrievedDocs] at hl
    simp [answerQuery, resetChat, retrievedDocs, hl]

/-- Witness for claim C7: resetting a session with prior turns, then querying. -/
theorem reset_frame_witness :
    (resetChat sIndexed2).chatHistory.length = 0
    ∧ (answerQuery embed0 sim0 llmOk "q".data (resetChat sIndexed2)).2 = false :=
  ⟨(reset_frame sIndexed2).1,
   ((reset_frame sIndexed2).2.2.2.2 embed0 sim0 llmOk "q".data "ok".data rfl rfl).1⟩

/-- Claim C8: the chat history is append-only under every operation except
reset, and a successful query appends exactly one user turn followed by one
assistant turn. -/
theorem chat_append_only :
    (∀ (op : Op) (s : SessionState), op ≠ Op.reset →
      ∃ suffix, (step op s).chatHistory = s.chatHistory ++ suffix)
    ∧ (∀ (embed : Str → Vec) (sim : Vec → Vec → ℚ) (llm : Str → Option Str)
        (q : Str) (s : SessionState) (a : Str), s.phase = Phase.Indexed →
        llm (prompt (retrievedDocs embed sim s q) q) = some a →
        (step (Op.query embed sim llm q) s).chatHistory =
          s.chatHistory ++ [⟨Role.user, q⟩, ⟨Role.assistant, a⟩]) := by
  constructor
  · intro op s hop
    cases op with
    | upload env t => exact ⟨[], by simp [step, processUpload_chatHistory]⟩
    | reset => exact absurd rfl hop
    | query embed sim llm q =>
      rcases s with ⟨ch, ph, ix, key⟩
      cases ph with
      | Idle => exact ⟨[], by simp [step, answerQuery]⟩
      | Indexed =>
        cases hl : llm (prompt (retrievedDocs embed sim ⟨ch, Phase.Indexed, ix, key⟩ q) q) with
        | some a =>
          exact ⟨[⟨Role.user, q⟩, ⟨Role.assistant, a⟩], by simp [step, answerQuery, hl]⟩
        | none => exact ⟨[⟨Role.user, q⟩], by simp [step, answerQuery, hl]⟩
  · intro embed sim llm q s a hp hl
    rcases s with ⟨ch, ph, ix, key⟩
    cases ph with
    | Idle => exact absurd hp (by simp)
    | Indexed => simp [step, answerQuery, hl]

/-- Witness for claim C8 at a concrete upload and a concrete successful query. -/
theorem chat_append_only_witness :
    (∃ suffix, (step (Op.upload env0 "hello".data) emptyHistoryIdle).chatHistory =
      emptyHistoryIdle.chatHistory ++ suffix)
    ∧ (step (Op.query embed0 sim0 llmOk "q".data) sIndexed).chatHistory =
        sIndexed.chatHistory ++ [⟨Role.user, "q".data⟩, ⟨Role.assistant, "ok".data⟩] :=
  ⟨chat_append_only.1 (Op.upload env0 "hello".data) emptyHistoryIdle
      (fun h => Op.noConfusion h),
   chat_append_only.2 embed0 sim0 llmOk "q".data sIndexed "ok".data rfl rfl⟩

/-- Claim C9: retrieval is deterministic — for a fixed query, a fixed built
index and a fixed (deterministic) embedder, any two calls return the same
sequence, whatever else differs between the two session states. -/
theorem retrieval_deterministic (embed : Str → Vec) (sim : Vec → Vec → ℚ)
    (q : Str) (s1 s2 : SessionState) (h : s1.index = s2.index) :
    retrievedDocs embed sim s1 q = retrievedDocs embed sim s2 q := by
  unfold retrievedDocs
  rw [h]

/-- Witness for claim C9: two states sharing an index but differing history. -/
theorem retrieval_deterministic_witness :
    retrievedDocs embed0 sim0 sIndexed "q".data =
      retrievedDocs embed0 sim0 sIndexed2 "q".data :=
  retrieval_deterministic embed0 sim0 "q".data sIndexed sIndexed2 rfl

/-- Claim C10: the retrieval count is the constant 3 for every query, and the
chunker parameters are the constants 300 and 50 for every upload. -/
theorem fixed_parameters :
    kRetrieval = 3 ∧ chunkSize = 300 ∧ chunkOverlap = 50
    ∧ (∀ (embed : Str → Vec) (sim : Vec → Vec → ℚ) (s : SessionState) (q : Str),
        retrievedDocs embed sim s q = retrieve embed sim s.index q 3
        ∧ (retrievedDocs embed sim s q).length ≤ 3)
    ∧ (∀ (env : String → Option Str) (t : Str) (s : SessionState),
        pyStrip t ≠ [] → chunk t 300 50 ≠ [] →
        (processUpload env t s).1.index = chunk t 300 50) := by
  refine ⟨rfl, rfl, rfl, ?_, ?_⟩
  · intro embed sim s q
    exact ⟨rfl, retrieve_length_le embed sim s.index q kRetrieval⟩
  · intro env t s hs hc
    simp [processUpload, chunkSize, chunkOverlap, hs, hc]

/-- Witness for claim C10 at a concrete query state and a concrete upload. -/
theorem fixed_parameters_witness :
    (retrievedDocs embed0 sim0 sIndexed "q".data).length ≤ 3
    ∧ (processUpload env0 "hello".data emptyHistoryIdle).1.index =
        chunk "hello".data 300 50 :=
  ⟨(fixed_parameters.2.2.2.1 embed0 sim0 sIndexed "q".data).2,
   fixed_parameters.2.2.2.2 env0 "hello".data emptyHistoryIdle (by decide)
     (by rw [show ("hello".data : Str) = ('h' :: 'e' :: 'l' :: 'l' :: 'o' :: []) from rfl,
           chunk_hello]; simp)⟩
